import Mathlib

/-!
Shallow embedding of the pagination/aggregation engine and the token-caching
authentication layer of the mcp-cm360 repository.

Sources embedded:
- src/cm360.ts, `paginatedRequest` (full aggregation over cursor pages) and
  `handleSelectAdvertiser`;
- the refactored single-page `paginatedRequest` (one upstream call, returns
  items plus the next page token);
- src/mcp/mcpServer.ts, `getAccessToken` (credential cache).

JavaScript-specific behaviour (truthiness of strings and numbers, object
spread ordering, `x || y` defaulting) is modelled explicitly.
-/

deriving instance DecidableEq for Except

namespace CM360

/-- Domain items are opaque to the engine; we model them as natural numbers. -/
abbrev Item := Nat

/-- Value found at `data[valueArrayKey]` in a response envelope: the field can
be absent (`undefined`), present but not an array (we record its JS truthiness
and whether its `.length` compares equal to `0`), or an array of items. -/
inductive ItemsVal where
  | missing
  | notArray (truthy : Bool) (lenIsZero : Bool)
  | arr (l : List Item)
deriving DecidableEq, Repr

/-- Response envelope (`CM360Response`): the named array field plus the
optional `nextPageToken` field (`none` = field absent; `some ""` = present but
empty). Other envelope fields are ignored by the engine. -/
structure Env where
  itemsField : ItemsVal
  nextPageToken : Option String
deriving DecidableEq, Repr

/-- Error raised by a failed upstream page fetch (non-2xx, transport failure,
or timeout); rethrown unchanged by both pagination functions. -/
structure UpErr where
  status : Nat
  msg : String
deriving DecidableEq, Repr

/-- An upstream stub: call index and the effective `pageToken` request
parameter determine the response. Filter parameters other than `pageToken`
are constant across one aggregation and are omitted. -/
abbrev Upstream := Nat → Option String → Except UpErr Env

/-- The caller-supplied `baseParams` record, projected to the one key the
loop interacts with: an optional `pageToken` entry. -/
structure BaseParams where
  pageTokenParam : Option String
deriving DecidableEq, Repr

/-- JS truthiness of the array-field value (`data[valueArrayKey]` as a
condition): `undefined` is falsy, arrays are truthy. -/
def jsTruthyItems : ItemsVal → Bool
  | .missing => false
  | .notArray truthy _ => truthy
  | .arr _ => true

/-- Whether the value is a JS array (`Array.isArray`). -/
def isArrayVal : ItemsVal → Bool
  | .arr _ => true
  | _ => false

/-- The array payload of the field when it is an array, `[]` otherwise. -/
def itemsOf : ItemsVal → List Item
  | .arr l => l
  | _ => []

/-- Whether `data[valueArrayKey].length === 0` holds; only ever evaluated on
truthy values (the loop short-circuits on falsy ones). For a truthy non-array
value the outcome is part of the modelled value. -/
def jsLenIsZero : ItemsVal → Bool
  | .missing => false
  | .notArray _ lenIsZero => lenIsZero
  | .arr l => l.isEmpty

/-- The item-extraction step shared by both pagination functions:
`(data[valueArrayKey] && Array.isArray(data[valueArrayKey])) ? ... : ...`. -/
def extractItems (v : ItemsVal) : List Item :=
  if jsTruthyItems v && isArrayVal v then itemsOf v else []

/-- The first two disjuncts of the loop exit test:
`!data[valueArrayKey] || data[valueArrayKey].length === 0`. -/
def itemsStop (v : ItemsVal) : Bool :=
  !jsTruthyItems v || jsLenIsZero v

/-- Effective `pageToken` request parameter produced by
`(pageToken) ? { pageToken, ...baseParams } : { ...baseParams }`: when the
loop cursor is truthy it is written first and then overridden by a
`pageToken` key of `baseParams` when one exists (object spread: later keys
win); when the cursor is empty only `baseParams` contributes. -/
def effParams (base : BaseParams) (pt : String) : Option String :=
  if pt = "" then base.pageTokenParam
  else
    match base.pageTokenParam with
    | some s => some s
    | none => some pt

/-- Outcome of a full aggregation: the returned value (or the propagated
error) together with the list of effective `pageToken` parameters of the
upstream requests that were issued, in order. -/
structure PagOut where
  result : Except UpErr (List Item)
  reqs : List (Option String)
deriving Repr

/-- One do-while pass of `paginatedRequest` in src/cm360.ts. `pn` is the
source's `pageNumber` (starts at 1, incremented after each fetch before the
exit test `pageNumber >= 10`); `pt` is the source's `pageToken` cursor
(`""` = falsy); `idx` is the call index fed to the stub. The `fuel` argument
only makes the recursion structural: from the entry point (`fuel = 9`,
`pn = 1`) the invariant `fuel + pn = 10` holds, so the exit test
`10 ≤ pn + 1` always fires before fuel runs out and the `fuel = 0` branch is
unreachable. -/
def pagLoop (up : Upstream) (base : BaseParams) :
    Nat → Nat → Nat → String → PagOut
  | 0, _, _, _ => ⟨.ok [], []⟩
  | fuel + 1, idx, pn, pt =>
    let eff := effParams base pt
    match up idx eff with
    | .error e => ⟨.error e, [eff]⟩
    | .ok data =>
      let got := extractItems data.itemsField
      let pt' := data.nextPageToken.getD ""
      if itemsStop data.itemsField = true ∨ pt' = "" ∨ 10 ≤ pn + 1 then
        ⟨.ok got, [eff]⟩
      else
        let rest := pagLoop up base fuel (idx + 1) (pn + 1) pt'
        ⟨rest.result.map (fun l => got ++ l), eff :: rest.reqs⟩

/-- Full aggregation, `paginatedRequest` of src/cm360.ts: starts with an
empty cursor and `pageNumber = 1`; any error thrown inside the loop is
rethrown by the surrounding try/catch. -/
def paginatedRequest (up : Upstream) (base : BaseParams) : PagOut :=
  pagLoop up base 9 0 1 ""

end CM360

namespace SinglePage

open CM360

/-- Single-page `paginatedRequest` of the refactored module: exactly one
upstream call with `{ ...baseParams }`; items normalized through the same
truthy-and-array test; `nextPageToken` becomes `undefined` (`none`) when the
envelope's field is absent or empty (`data.nextPageToken || undefined`). -/
def paginatedRequest (up : Upstream) (idx : Nat) (base : BaseParams) :
    Except UpErr (List Item × Option String) :=
  match up idx base.pageTokenParam with
  | .error e => .error e
  | .ok data =>
    let items := extractItems data.itemsField
    let pt := data.nextPageToken.getD ""
    .ok (items, if pt = "" then none else some pt)

/-- Manual pagination driver from the spec's round-trip property: call the
single-page operation, and while it reports a next cursor, feed that cursor
into the next call's `pageToken` parameter, concatenating the item lists.
`fuel` bounds the number of calls so the recursion is structural. -/
def manualLoop (up : Upstream) :
    Nat → Nat → Option String → Except UpErr (List Item)
  | 0, _, _ => .ok []
  | fuel + 1, idx, cur =>
    match paginatedRequest up idx ⟨cur⟩ with
    | .error e => .error e
    | .ok (items, none) => .ok items
    | .ok (items, some c) =>
      (manualLoop up fuel (idx + 1) (some c)).map (fun l => items ++ l)

/-- Manual aggregation: first call with the caller's own parameters, then
follow the returned cursors. -/
def manualFetchAll (up : Upstream) (base : BaseParams) (fuel : Nat) :
    Except UpErr (List Item) :=
  manualLoop up fuel 0 base.pageTokenParam

/-- Spec-side statement of the items normalization: the envelope's named
array field, with missing or non-array values normalized to an empty
list. -/
def specNormItems : ItemsVal → List Item
  | .arr l => l
  | _ => []

/-- Spec-side statement of the cursor normalization: an empty or missing
continuation field becomes `none`. -/
def specNormCursor : Option String → Option String
  | none => none
  | some s => if s = "" then none else some s

end SinglePage

namespace CM360

/-- A stub upstream built from a fixed sequence of canned page responses:
call number `i` is answered with the `i`-th envelope regardless of the
request parameters (the behaviour of a mocked HTTP client in the test
suite); calls past the end of the sequence fail. -/
def seqStub (pages : List Env) : Upstream :=
  fun idx _ =>
    match pages.get? idx with
    | some p => .ok p
    | none => .error ⟨500, "no stubbed page"⟩

/-- Concatenation of the extracted items of a page sequence, in order. -/
def aggItems : List Env → List Item
  | [] => []
  | p :: rest => extractItems p.itemsField ++ aggItems rest

/-- Whether a non-empty page sequence drives the aggregation loop to its
final page without an early stop: every page before the last passes the
items test and carries a non-empty cursor, and the last page triggers at
least one of the three exit conditions when reached with `pageNumber = pn`. -/
def chainOk : Nat → List Env → Bool
  | pn, [p] =>
    itemsStop p.itemsField || (p.nextPageToken.getD "" == "") || (pn + 1 == 10)
  | pn, p :: q :: rest =>
    !itemsStop p.itemsField && (p.nextPageToken.getD "" != "") &&
      chainOk (pn + 1) (q :: rest)
  | _, [] => false

/-- A terminating cursor chain: every page before the last has a non-empty
item array and a non-empty cursor, and the last page carries no cursor. -/
def fullChain : List Env → Bool
  | [p] => p.nextPageToken.getD "" == ""
  | p :: q :: rest =>
    !itemsStop p.itemsField && (p.nextPageToken.getD "" != "") &&
      fullChain (q :: rest)
  | [] => false

/-- Whether the field value is a non-empty item array. -/
def nonEmptyArr : ItemsVal → Bool
  | .arr l => !l.isEmpty
  | _ => false

/-- Stub that answers every request with one more non-empty page: used to
exercise the page-cap exit condition. -/
def constStub : Upstream :=
  fun _ _ => .ok ⟨.arr [1], some "t"⟩

/-- Stub whose second page fails with HTTP 500 while pages 1 and 3 would
succeed with a continuation cursor. -/
def failPage2Stub : Upstream :=
  fun idx _ =>
    if idx = 1 then .error ⟨500, "server error"⟩
    else .ok ⟨.arr [idx + 1], some "t"⟩

/-- Three-page stub sequence whose second page has an empty item array but
still carries a continuation cursor. -/
def emptyMidPages : List Env :=
  [⟨.arr [1], some "t"⟩, ⟨.arr [], some "u"⟩, ⟨.arr [2], none⟩]

/-- Eleven-page stub sequence: pages 1 through 10 each hold one item and a
continuation cursor, page 11 has an empty item array. -/
def elevenPages : List Env :=
  (List.range 10).map (fun i => ⟨.arr [i + 1], some "t"⟩) ++ [⟨.arr [], none⟩]

/-- Two-page stub sequence whose second page carries no cursor. -/
def twoPages : List Env :=
  [⟨.arr [1], some "t"⟩, ⟨.arr [2, 3], none⟩]

end CM360

namespace McpServer

/-- Internal state of the credential cache of `CM360MCPServer`
(src/mcp/mcpServer.ts): the `accessToken` field (`none` = `null`) and the
`tokenExpiry` field in milliseconds since the epoch (initialized to `0`). -/
structure AuthState where
  accessToken : Option String
  tokenExpiry : Nat
deriving DecidableEq, Repr

/-- Response of one `jwtClient.getAccessToken()` provider call: the `token`
field (`none` = absent or `null`) and the `expires_in` field of
`token.res.data` in seconds (`none` when `res`, `res.data` or the field
itself is absent). -/
structure TokenResp where
  token : Option String
  expires_in : Option Nat
deriving DecidableEq, Repr

/-- Failure of `getAccessToken`: the provider call threw, or its response
carried no usable token. -/
inductive AuthErr where
  | provider
  | missingToken
deriving DecidableEq, Repr

/-- Result of one `getAccessToken` invocation: the returned token string,
the cache state after the call, and whether the provider was called. -/
structure AuthOut where
  token : String
  state : AuthState
  providerCalled : Bool
deriving DecidableEq, Repr

/-- JS truthiness of an optional token string: `null`, absent and `""` are
falsy. -/
def tokenTruthy : Option String → Bool
  | none => false
  | some s => !(s == "")

/-- The cached-path test `this.accessToken && this.tokenExpiry > now + 60000`. -/
def cacheValid (st : AuthState) (now : Nat) : Bool :=
  tokenTruthy st.accessToken && decide (now + 60000 < st.tokenExpiry)

/-- Expiry recorded for a fresh token: `now + expires_in * 1000` when the
provider response carries a truthy `expires_in` (in JS, `0` is falsy and
falls through to the default), `now + 3600000` otherwise. -/
def expiryOf (now : Nat) (resp : TokenResp) : Nat :=
  match resp.expires_in with
  | some e => if e ≠ 0 then now + e * 1000 else now + 3600000
  | none => now + 3600000

/-- The `getAccessToken` method of src/mcp/mcpServer.ts, with the cache
state, the current time `Date.now()` and the outcome of the (at most one)
provider call made explicit. On the cached path the stored token is
returned and nothing changes; otherwise the provider is consulted, its
token stored with a fresh expiry and returned, and failures are rethrown. -/
def getAccessToken (st : AuthState) (now : Nat)
    (prov : Except AuthErr TokenResp) : Except AuthErr AuthOut :=
  if cacheValid st now then
    .ok ⟨st.accessToken.getD "", st, false⟩
  else
    match prov with
    | .error e => .error e
    | .ok resp =>
      if tokenTruthy resp.token then
        let t := resp.token.getD ""
        .ok ⟨t, ⟨some t, expiryOf now resp⟩, true⟩
      else
        .error .missingToken

end McpServer

namespace CM360

/-- Value of the `advertiserId` key of the argument object: a number or any
non-number JSON value. -/
inductive ArgVal where
  | num (n : Int)
  | nonNum
deriving DecidableEq, Repr

/-- Argument object of the select-advertiser tool, projected to the one key
the schema looks at (`none` = key absent). -/
structure SelArgs where
  advertiserId : Option ArgVal
deriving DecidableEq, Repr

/-- The check `SelectAdvertiserSchema.parse(args || {})`: an absent argument
object parses as `{}`; the `advertiserId` key must be present and a number. -/
def parseSelectAdvertiser : Option SelArgs → Except String Int
  | none => .error "advertiserId: Required"
  | some a =>
    match a.advertiserId with
    | some (.num n) => .ok n
    | some .nonNum => .error "advertiserId: Expected number, received other"
    | none => .error "advertiserId: Required"

/-- The `handleSelectAdvertiser` handler of src/cm360.ts as a transition on
the module-level `selectedAdvertiserId` variable: on successful validation
the parsed id is stored and a success message returned; the catch branch
sets `selectedAdvertiserId = null` and rethrows the validation error. -/
def handleSelectAdvertiser (selected : Option Int) (args : Option SelArgs) :
    Except String String × Option Int :=
  match parseSelectAdvertiser args with
  | .ok n => (.ok "Advertiser selected successfully", some n)
  | .error e => (.error e, none)

end CM360

namespace CM360

theorem extractItems_eq_specNorm (v : ItemsVal) :
    extractItems v = SinglePage.specNormItems v := by
  cases v with
  | missing => rfl
  | notArray t z => cases t <;> rfl
  | arr l => rfl

theorem effParams_of_base (base : BaseParams) (s : String)
    (hb : base.pageTokenParam = some s) (pt : String) :
    effParams base pt = some s := by
  unfold effParams
  rw [hb]
  by_cases h : pt = "" <;> simp [h]

end CM360

/-- C6: for every 2xx upstream response envelope, the single-page operation
returns as items the envelope's named array field normalized to an empty
list when the field is missing or not an array, and as next cursor the
envelope's continuation field normalized to `none` when it is empty or
missing. -/
theorem SinglePage.paginatedRequest_normalizes (up : CM360.Upstream) (idx : Nat)
    (base : CM360.BaseParams) (data : CM360.Env)
    (h : up idx base.pageTokenParam = .ok data) :
    SinglePage.paginatedRequest up idx base =
      .ok (SinglePage.specNormItems data.itemsField,
        SinglePage.specNormCursor data.nextPageToken) := by
  simp only [SinglePage.paginatedRequest, h, CM360.extractItems_eq_specNorm]
  cases hc : data.nextPageToken with
  | none => simp [SinglePage.specNormCursor]
  | some s =>
    by_cases hs : s = "" <;> simp [SinglePage.specNormCursor, hs]

/-- Witness for C6: a page whose array field holds a truthy non-array value
and whose continuation field is present but empty normalizes to no items and
no cursor. -/
theorem SinglePage.paginatedRequest_normalizes_witness :
    SinglePage.paginatedRequest
        (CM360.seqStub [⟨.notArray true false, some ""⟩]) 0 ⟨none⟩ =
      .ok ([], none) :=
  SinglePage.paginatedRequest_normalizes
    (CM360.seqStub [⟨.notArray true false, some ""⟩]) 0 ⟨none⟩
    ⟨.notArray true false, some ""⟩ rfl

/-- C9: whenever schema validation of the arguments fails, the
select-advertiser handler rethrows the validation error and resets the
shared selected-advertiser state to `null`, discarding any previously
selected advertiser. -/
theorem CM360.handleSelectAdvertiser_resets_on_error (selected : Option Int)
    (args : Option CM360.SelArgs) (e : String)
    (h : CM360.parseSelectAdvertiser args = .error e) :
    CM360.handleSelectAdvertiser selected args = (.error e, none) := by
  unfold CM360.handleSelectAdvertiser
  rw [h]

/-- Witness for C9: with advertiser 42 selected, a non-number `advertiserId`
argument makes the handler throw and clear the selection. -/
theorem CM360.handleSelectAdvertiser_resets_on_error_witness :
    CM360.handleSelectAdvertiser (some 42) (some ⟨some .nonNum⟩) =
      (.error "advertiserId: Expected number, received other", none) :=
  CM360.handleSelectAdvertiser_resets_on_error (some 42) (some ⟨some .nonNum⟩)
    "advertiserId: Expected number, received other" rfl

theorem McpServer.getAccessToken_fresh (st : McpServer.AuthState) (now : Nat)
    (resp : McpServer.TokenResp) (s : String)
    (hc : McpServer.cacheValid st now = false) (htk : resp.token = some s)
    (hs : s ≠ "") :
    McpServer.getAccessToken st now (.ok resp) =
      .ok ⟨s, ⟨some s, McpServer.expiryOf now resp⟩, true⟩ := by
  simp [McpServer.getAccessToken, hc, McpServer.tokenTruthy, htk, hs]

/-- C3: when a cached token exists and its expiry lies more than 60 seconds
in the future, `getAccessToken` returns it unchanged without a provider
call; otherwise the provider is called, the stored credential is replaced by
the new one, and the new one is returned; consequently a second call issued
while the fresh token is still inside the safety-margin window performs no
further provider call. -/
theorem McpServer.getAccessToken_cache_policy (st : McpServer.AuthState)
    (now now2 : Nat) (prov prov2 : Except McpServer.AuthErr McpServer.TokenResp) :
    (McpServer.cacheValid st now = true →
      McpServer.getAccessToken st now prov =
        .ok ⟨st.accessToken.getD "", st, false⟩)
    ∧ (∀ resp s, McpServer.cacheValid st now = false → prov = .ok resp →
        resp.token = some s → s ≠ "" →
        McpServer.getAccessToken st now prov =
          .ok ⟨s, ⟨some s, McpServer.expiryOf now resp⟩, true⟩)
    ∧ (∀ resp s, McpServer.cacheValid st now = false → prov = .ok resp →
        resp.token = some s → s ≠ "" →
        now2 + 60000 < McpServer.expiryOf now resp →
        McpServer.getAccessToken st now prov =
          .ok ⟨s, ⟨some s, McpServer.expiryOf now resp⟩, true⟩ ∧
        McpServer.getAccessToken ⟨some s, McpServer.expiryOf now resp⟩ now2 prov2 =
          .ok ⟨s, ⟨some s, McpServer.expiryOf now resp⟩, false⟩) := by
  have fresh : ∀ resp s, McpServer.cacheValid st now = false → prov = .ok resp →
      resp.token = some s → s ≠ "" →
      McpServer.getAccessToken st now prov =
        .ok ⟨s, ⟨some s, McpServer.expiryOf now resp⟩, true⟩ := by
    intro resp s hc hpr htk hs
    subst hpr
    exact McpServer.getAccessToken_fresh st now resp s hc htk hs
  refine ⟨?_, fresh, ?_⟩
  · intro hc
    unfold McpServer.getAccessToken
    rw [if_pos hc]
  · intro resp s hc hpr htk hs hwin
    refine ⟨fresh resp s hc hpr htk hs, ?_⟩
    have hv : McpServer.cacheValid ⟨some s, McpServer.expiryOf now resp⟩ now2 = true := by
      simp [McpServer.cacheValid, McpServer.tokenTruthy, hs, hwin]
    unfold McpServer.getAccessToken
    rw [if_pos hv]
    rfl

/-- Witness for C3: starting from an empty cache at time 0, a provider
response with a 100-second lifetime is stored and returned with a provider
call, and a second call at time 10 returns the same token from the cache
without calling the provider. -/
theorem McpServer.getAccessToken_cache_policy_witness :
    McpServer.getAccessToken ⟨none, 0⟩ 0 (.ok ⟨some "tok", some 100⟩) =
      .ok ⟨"tok", ⟨some "tok", 100000⟩, true⟩ ∧
    McpServer.getAccessToken ⟨some "tok", 100000⟩ 10 (.error .provider) =
      .ok ⟨"tok", ⟨some "tok", 100000⟩, false⟩ :=
  (McpServer.getAccessToken_cache_policy ⟨none, 0⟩ 0 10
      (.ok ⟨some "tok", some 100⟩) (.error .provider)).2.2
    ⟨some "tok", some 100⟩ "tok" (by decide) rfl rfl (by decide) (by decide)

/-- C5: every token `getAccessToken` hands out is unexpired at hand-off
time: the expiry stored for it is strictly later than the call time, and on
the cached path (no provider call) it is more than 60 seconds later. -/
theorem McpServer.getAccessToken_unexpired (st : McpServer.AuthState)
    (now : Nat) (prov : Except McpServer.AuthErr McpServer.TokenResp)
    (out : McpServer.AuthOut)
    (h : McpServer.getAccessToken st now prov = .ok out) :
    now < out.state.tokenExpiry ∧
      (out.providerCalled = false → now + 60000 < out.state.tokenExpiry) := by
  unfold McpServer.getAccessToken at h
  by_cases hc : McpServer.cacheValid st now
  · rw [if_pos hc] at h
    injection h with h
    subst h
    have hm : now + 60000 < st.tokenExpiry := by
      have h2 := hc
      unfold McpServer.cacheValid at h2
      simp only [Bool.and_eq_true, decide_eq_true_eq] at h2
      exact h2.2
    constructor
    · show now < st.tokenExpiry
      omega
    · intro _
      show now + 60000 < st.tokenExpiry
      exact hm
  · rw [if_neg hc] at h
    cases prov with
    | error e => exact absurd h (by simp)
    | ok resp =>
      by_cases ht : McpServer.tokenTruthy resp.token = true
      · simp only [ht, if_true] at h
        injection h with h
        subst h
        refine ⟨?_, by intro hpc; simp at hpc⟩
        show now < McpServer.expiryOf now resp
        unfold McpServer.expiryOf
        cases resp.expires_in with
        | none =>
          show now < now + 3600000
          omega
        | some e =>
          show now < if e ≠ 0 then now + e * 1000 else now + 3600000
          by_cases he : e ≠ 0
          · rw [if_pos he]
            have h1 : 1 ≤ e := by omega
            have h1000 : 1000 ≤ e * 1000 := by omega
            omega
          · rw [if_neg he]
            omega
      · simp only [ht] at h
        simp at h

/-- Witness for C5: a cached token with expiry 1000000 handed out at time 5
is unexpired by more than the safety margin. -/
theorem McpServer.getAccessToken_unexpired_witness :
    (5 : Nat) < (McpServer.AuthOut.mk "t" ⟨some "t", 1000000⟩ false).state.tokenExpiry ∧
      ((McpServer.AuthOut.mk "t" ⟨some "t", 1000000⟩ false).providerCalled = false →
        5 + 60000 < (McpServer.AuthOut.mk "t" ⟨some "t", 1000000⟩ false).state.tokenExpiry) :=
  McpServer.getAccessToken_unexpired ⟨some "t", 1000000⟩ 5 (.error .provider)
    ⟨"t", ⟨some "t", 1000000⟩, false⟩ (by decide)

/-- Counterexample for C8: a provider response that carries an explicit
`expires_in` of `0` seconds is recorded with the default one-hour lifetime
(`0` is falsy in JS), not with `call time + 0` as the claim states. -/
theorem McpServer.expiresIn_zero_counterexample :
    McpServer.getAccessToken ⟨none, 0⟩ 1000 (.ok ⟨some "t", some 0⟩) =
      .ok ⟨"t", ⟨some "t", 1000 + 3600000⟩, true⟩ ∧
    (1000 + 3600000 : Nat) ≠ 1000 + 0 * 1000 := by
  exact ⟨by decide, by decide⟩

/-- C8 amended: on a refresh, a missing or zero `expires_in` yields the
default expiry `call time + 3600000` ms, and a present non-zero `expires_in`
yields `call time + expires_in * 1000` ms. -/
theorem McpServer.getAccessToken_expiry_rule (st : McpServer.AuthState)
    (now : Nat) (resp : McpServer.TokenResp) (s : String)
    (hc : McpServer.cacheValid st now = false) (htk : resp.token = some s)
    (hs : s ≠ "") :
    (resp.expires_in = none ∨ resp.expires_in = some 0 →
      McpServer.getAccessToken st now (.ok resp) =
        .ok ⟨s, ⟨some s, now + 3600000⟩, true⟩)
    ∧ (∀ e, resp.expires_in = some e → e ≠ 0 →
      McpServer.getAccessToken st now (.ok resp) =
        .ok ⟨s, ⟨some s, now + e * 1000⟩, true⟩) := by
  have fresh := McpServer.getAccessToken_fresh st now resp s hc htk hs
  constructor
  · intro hd
    rw [fresh]
    have : McpServer.expiryOf now resp = now + 3600000 := by
      rcases hd with hd | hd <;> simp [McpServer.expiryOf, hd]
    rw [this]
  · intro e he hz
    rw [fresh]
    have : McpServer.expiryOf now resp = now + e * 1000 := by
      simp [McpServer.expiryOf, he, hz]
    rw [this]

/-- Witness for C8 amended: a 5-second `expires_in` at time 7 yields expiry
7 + 5000 ms. -/
theorem McpServer.getAccessToken_expiry_rule_witness :
    McpServer.getAccessToken ⟨none, 0⟩ 7 (.ok ⟨some "t", some 5⟩) =
      .ok ⟨"t", ⟨some "t", 7 + 5 * 1000⟩, true⟩ :=
  (McpServer.getAccessToken_expiry_rule ⟨none, 0⟩ 7 ⟨some "t", some 5⟩ "t"
    (by decide) rfl (by decide)).2 5 rfl (by decide)

namespace CM360

theorem pagLoop_reqs_override (up : Upstream) (base : BaseParams) (s : String)
    (hb : base.pageTokenParam = some s) :
    ∀ (fuel idx pn : Nat) (pt : String) (r : Option String),
      r ∈ (pagLoop up base fuel idx pn pt).reqs → r = some s := by
  intro fuel
  induction fuel with
  | zero =>
    intro idx pn pt r hr
    simp [pagLoop] at hr
  | succ f ih =>
    intro idx pn pt r hr
    cases hu : up idx (effParams base pt) with
    | error e =>
      simp only [pagLoop, hu, List.mem_singleton] at hr
      rw [hr]
      exact effParams_of_base base s hb pt
    | ok data =>
      simp only [pagLoop, hu] at hr
      split at hr
      · simp only [List.mem_singleton] at hr
        rw [hr]
        exact effParams_of_base base s hb pt
      · simp only [List.mem_cons] at hr
        rcases hr with hr | hr
        · rw [hr]
          exact effParams_of_base base s hb pt
        · exact ih (idx + 1) (pn + 1) (data.nextPageToken.getD "") r hr

end CM360

/-- C10: when the caller-supplied filter parameters carry a `pageToken` key,
the object spread writes it after the loop cursor, so every upstream request
of the full aggregation carries the caller's token rather than the cursor
returned by the previous page. -/
theorem CM360.paginatedRequest_callerToken_overrides (up : CM360.Upstream)
    (base : CM360.BaseParams) (s : String)
    (hb : base.pageTokenParam = some s) (r : Option String)
    (hr : r ∈ (CM360.paginatedRequest up base).reqs) : r = some s :=
  CM360.pagLoop_reqs_override up base s hb 9 0 1 "" r hr

/-- Witness for C10: with `pageToken = "mine"` among the base parameters,
the third request of an aggregation over an always-continuing stub still
carries `"mine"`. -/
theorem CM360.paginatedRequest_callerToken_overrides_witness :
    (CM360.paginatedRequest CM360.constStub ⟨some "mine"⟩).reqs.get
        ⟨2, by decide⟩ = some "mine" :=
  CM360.paginatedRequest_callerToken_overrides CM360.constStub ⟨some "mine"⟩
    "mine" rfl _ (by decide)

namespace CM360

theorem pagLoop_cont_len (up : Upstream) (base : BaseParams)
    (hup : ∀ i t, ∃ l tok, up i t = .ok ⟨.arr l, some tok⟩ ∧ l ≠ [] ∧ tok ≠ "") :
    ∀ (fuel idx pn : Nat) (pt : String), fuel + pn = 10 →
      (pagLoop up base fuel idx pn pt).reqs.length = fuel := by
  intro fuel
  induction fuel with
  | zero =>
    intro idx pn pt hfp
    simp [pagLoop]
  | succ f ih =>
    intro idx pn pt hfp
    obtain ⟨l, tok, hu, hl, ht⟩ := hup idx (effParams base pt)
    have hstop : itemsStop (ItemsVal.arr l) = false := by
      simp [itemsStop, jsTruthyItems, jsLenIsZero, hl]
    simp only [pagLoop, hu]
    split
    case isTrue hcond =>
      rcases hcond with hcond | hcond | hcond
      · rw [hstop] at hcond
        exact absurd hcond (by simp)
      · simp only [Option.getD_some] at hcond
        exact absurd hcond ht
      · have hf : f = 0 := by omega
        simp [hf]
    case isFalse hcond =>
      have : ¬(10 ≤ pn + 1) := fun hge => hcond (Or.inr (Or.inr hge))
      simp only [List.length_cons]
      rw [ih (idx + 1) (pn + 1) ((some tok).getD "") (by omega)]

end CM360

/-- C1 (behaviour at the failing input class): against a stub upstream whose
every page response carries a non-empty item array and a non-empty
`nextPageToken`, the full aggregation of src/cm360.ts issues exactly 9
upstream calls — `pageNumber` starts at 1 and is incremented before the
`pageNumber >= 10` exit test, so the loop stops after the ninth fetch, not
the tenth promised by its own comment and by the specification. -/
theorem CM360.paginatedRequest_alwaysNext_nineCalls (up : CM360.Upstream)
    (base : CM360.BaseParams)
    (hup : ∀ i t, ∃ l tok, up i t = .ok ⟨.arr l, some tok⟩ ∧ l ≠ [] ∧ tok ≠ "") :
    (CM360.paginatedRequest up base).reqs.length = 9 :=
  CM360.pagLoop_cont_len up base hup 9 0 1 "" rfl

/-- Witness for C1: the constant always-continuing stub gets exactly 9
calls. -/
theorem CM360.paginatedRequest_alwaysNext_nineCalls_witness :
    (CM360.paginatedRequest CM360.constStub ⟨none⟩).reqs.length = 9 :=
  CM360.paginatedRequest_alwaysNext_nineCalls CM360.constStub ⟨none⟩
    (fun _ _ => ⟨[1], "t", rfl, by decide, by decide⟩)

namespace CM360

theorem pagLoop_error_propagates (up : Upstream) (base : BaseParams) :
    ∀ (fuel idx pn : Nat) (pt : String) (i : Nat) (r : Option String)
      (e : UpErr),
      (pagLoop up base fuel idx pn pt).reqs.get? i = some r →
      up (idx + i) r = .error e →
      (pagLoop up base fuel idx pn pt).result = .error e := by
  intro fuel
  induction fuel with
  | zero =>
    intro idx pn pt i r e hget herr
    simp [pagLoop] at hget
  | succ f ih =>
    intro idx pn pt i r e hget herr
    cases hu : up idx (effParams base pt) with
    | error e0 =>
      simp only [pagLoop, hu] at hget ⊢
      cases i with
      | zero =>
        simp only [List.get?_cons_zero, Option.some_inj] at hget
        subst hget
        rw [Nat.add_zero, hu] at herr
        injection herr with herr
        rw [herr]
      | succ j => simp at hget
    | ok data =>
      by_cases hcond : itemsStop data.itemsField = true ∨
          data.nextPageToken.getD "" = "" ∨ 10 ≤ pn + 1
      · simp only [pagLoop, hu, if_pos hcond] at hget ⊢
        cases i with
        | zero =>
          simp only [List.get?_cons_zero, Option.some_inj] at hget
          subst hget
          rw [Nat.add_zero, hu] at herr
          exact absurd herr (by simp)
        | succ j => simp at hget
      · simp only [pagLoop, hu, if_neg hcond] at hget ⊢
        cases i with
        | zero =>
          simp only [List.get?_cons_zero, Option.some_inj] at hget
          subst hget
          rw [Nat.add_zero, hu] at herr
          exact absurd herr (by simp)
        | succ j =>
          simp only [List.get?_cons_succ] at hget
          have heq : idx + (j + 1) = (idx + 1) + j := by omega
          rw [heq] at herr
          rw [ih (idx + 1) (pn + 1) (data.nextPageToken.getD "") j r e hget herr]
          rfl

end CM360

/-- C2: whenever some page fetch of the full aggregation fails, the error is
propagated to the caller and no partial item list is returned — the result
is the error itself, so items accumulated from earlier successful pages are
discarded. -/
theorem CM360.paginatedRequest_error_aborts (up : CM360.Upstream)
    (base : CM360.BaseParams) (i : Nat) (r : Option String) (e : CM360.UpErr)
    (hget : (CM360.paginatedRequest up base).reqs.get? i = some r)
    (herr : up i r = .error e) :
    (CM360.paginatedRequest up base).result = .error e := by
  apply CM360.pagLoop_error_propagates up base 9 0 1 "" i r e hget
  rw [Nat.zero_add]
  exact herr

/-- Witness for C2: a stub whose second page returns HTTP 500 makes the
aggregation return that error rather than page 1's items. -/
theorem CM360.paginatedRequest_error_aborts_witness :
    (CM360.paginatedRequest CM360.failPage2Stub ⟨none⟩).result =
      .error ⟨500, "server error"⟩ :=
  CM360.paginatedRequest_error_aborts CM360.failPage2Stub ⟨none⟩ 1
    (some "t") ⟨500, "server error"⟩ (by decide) (by decide)

namespace CM360

theorem aggItems_append : ∀ (a b : List Env),
    aggItems (a ++ b) = aggItems a ++ aggItems b := by
  intro a b
  induction a with
  | nil => simp [aggItems]
  | cons p r ih => simp [aggItems, ih]

theorem chainOk_cons_ne (pn : Nat) (p : Env) (l : List Env) (hl : l ≠ []) :
    chainOk pn (p :: l) =
      (!itemsStop p.itemsField && (p.nextPageToken.getD "" != "") &&
        chainOk (pn + 1) l) := by
  cases l with
  | nil => exact absurd rfl hl
  | cons q r => rfl

theorem fullChain_chainOk : ∀ (pages : List Env) (pn : Nat),
    fullChain pages = true → chainOk pn pages = true := by
  intro pages
  induction pages with
  | nil => intro pn h; simp [fullChain] at h
  | cons p rest ih =>
    intro pn h
    cases rest with
    | nil =>
      simp only [fullChain] at h
      simp [chainOk, h]
    | cons q rest2 =>
      simp only [fullChain, Bool.and_eq_true] at h
      rw [chainOk_cons_ne pn p (q :: rest2) (by simp)]
      simp only [Bool.and_eq_true]
      exact ⟨h.1, ih (pn + 1) h.2⟩

theorem chainOk_of_front : ∀ (front : List Env) (lastp : Env) (pn : Nat),
    front.all (fun p => !itemsStop p.itemsField &&
      (p.nextPageToken.getD "" != "")) = true →
    itemsStop lastp.itemsField = true →
    chainOk pn (front ++ [lastp]) = true := by
  intro front
  induction front with
  | nil =>
    intro lastp pn _ hstop
    simp [chainOk, hstop]
  | cons p front2 ih =>
    intro lastp pn hall hstop
    simp only [List.all_cons, Bool.and_eq_true] at hall
    rw [List.cons_append, chainOk_cons_ne pn p (front2 ++ [lastp]) (by simp)]
    simp only [Bool.and_eq_true]
    exact ⟨hall.1, ih lastp (pn + 1) hall.2 hstop⟩

theorem pagLoop_chain (up : Upstream) (base : BaseParams) :
    ∀ (pages : List Env) (fuel idx pn : Nat) (pt : String),
      pages.length ≤ fuel →
      pn + pages.length ≤ 10 →
      (∀ i p t, pages.get? i = some p → up (idx + i) t = .ok p) →
      chainOk pn pages = true →
      (pagLoop up base fuel idx pn pt).result = .ok (aggItems pages) ∧
        (pagLoop up base fuel idx pn pt).reqs.length = pages.length := by
  intro pages
  induction pages with
  | nil =>
    intro fuel idx pn pt _ _ _ hchain
    simp [chainOk] at hchain
  | cons p rest ih =>
    intro fuel idx pn pt hfuel hlen hup hchain
    have hfuel' : rest.length + 1 ≤ fuel := by simpa using hfuel
    obtain ⟨f, rfl⟩ : ∃ f, fuel = f + 1 := ⟨fuel - 1, by omega⟩
    have hp : up idx (effParams base pt) = .ok p :=
      hup 0 p (effParams base pt) (by simp)
    cases rest with
    | nil =>
      simp only [chainOk, Bool.or_eq_true, beq_iff_eq] at hchain
      have hcond : itemsStop p.itemsField = true ∨
          p.nextPageToken.getD "" = "" ∨ 10 ≤ pn + 1 := by
        rcases hchain with (hc | hc) | hc
        · exact Or.inl hc
        · exact Or.inr (Or.inl hc)
        · exact Or.inr (Or.inr (by omega))
      simp only [pagLoop, hp, if_pos hcond]
      simp [aggItems]
    | cons q rest2 =>
      rw [chainOk_cons_ne pn p (q :: rest2) (by simp)] at hchain
      simp only [Bool.and_eq_true, Bool.not_eq_eq_eq_not, Bool.not_true,
        bne_iff_ne, ne_eq] at hchain
      obtain ⟨⟨h1, h2⟩, h3⟩ := hchain
      have hlen' : pn + (rest2.length + 2) ≤ 10 := by simpa using hlen
      have hcond : ¬(itemsStop p.itemsField = true ∨
          p.nextPageToken.getD "" = "" ∨ 10 ≤ pn + 1) := by
        push_neg
        exact ⟨by simp [h1], h2, by omega⟩
      simp only [pagLoop, hp, if_neg hcond]
      have hup' : ∀ i p2 t, (q :: rest2).get? i = some p2 →
          up ((idx + 1) + i) t = .ok p2 := by
        intro i p2 t hg
        have heq : (idx + 1) + i = idx + (i + 1) := by omega
        rw [heq]
        exact hup (i + 1) p2 t (by simpa using hg)
      have ihr := ih f (idx + 1) (pn + 1) (p.nextPageToken.getD "")
        (by simp only [List.length_cons] at hfuel' ⊢; omega)
        (by simp only [List.length_cons]; omega) hup' h3
      constructor
      · simp only [ihr.1]
        rfl
      · simp [ihr.2]

theorem manualLoop_chain (up : Upstream) :
    ∀ (pages : List Env) (fuel idx : Nat) (cur : Option String),
      pages.length ≤ fuel →
      (∀ i p t, pages.get? i = some p → up (idx + i) t = .ok p) →
      fullChain pages = true →
      SinglePage.manualLoop up fuel idx cur = .ok (aggItems pages) := by
  intro pages
  induction pages with
  | nil =>
    intro fuel idx cur _ _ hchain
    simp [fullChain] at hchain
  | cons p rest ih =>
    intro fuel idx cur hfuel hup hchain
    have hfuel' : rest.length + 1 ≤ fuel := by simpa using hfuel
    obtain ⟨f, rfl⟩ : ∃ f, fuel = f + 1 := ⟨fuel - 1, by omega⟩
    have hp : up idx cur = .ok p := hup 0 p cur (by simp)
    cases rest with
    | nil =>
      simp only [fullChain, beq_iff_eq] at hchain
      simp only [SinglePage.manualLoop, SinglePage.paginatedRequest, hp, hchain]
      simp [aggItems]
    | cons q rest2 =>
      have hchain2 := hchain
      rw [show fullChain (p :: q :: rest2) =
          (!itemsStop p.itemsField && (p.nextPageToken.getD "" != "") &&
            fullChain (q :: rest2)) from rfl] at hchain2
      simp only [Bool.and_eq_true, bne_iff_ne, ne_eq] at hchain2
      obtain ⟨⟨_, h2⟩, h3⟩ := hchain2
      have hup2 : ∀ i p2 t, (q :: rest2).get? i = some p2 →
          up ((idx + 1) + i) t = .ok p2 := by
        intro i p2 t hg
        have heq : (idx + 1) + i = idx + (i + 1) := by omega
        rw [heq]
        exact hup (i + 1) p2 t (by simpa using hg)
      have ihr := ih f (idx + 1) (some (p.nextPageToken.getD ""))
        (by simp only [List.length_cons] at hfuel' ⊢; omega) hup2 h3
      simp only [SinglePage.manualLoop, SinglePage.paginatedRequest, hp,
        if_neg h2]
      rw [ihr]
      rfl

end CM360

/-- Counterexample for C4: on the three-page stub sequence whose second page
has an empty item array but still carries a cursor, manually following the
cursors through the single-page operation yields `[1, 2]` while the full
aggregation stops at the empty page and returns `[1]`. -/
theorem SinglePage.manual_roundTrip_counterexample :
    SinglePage.manualFetchAll (CM360.seqStub CM360.emptyMidPages) ⟨none⟩ 3 ≠
      (CM360.paginatedRequest (CM360.seqStub CM360.emptyMidPages) ⟨none⟩).result := by
  decide

/-- C4 amended: for every stub page sequence that ends its cursor chain
within 9 pages and whose pages before the last all have non-empty item
arrays and non-empty cursors, manually concatenating the pages via the
single-page operation equals the full aggregation's result. -/
theorem SinglePage.manual_roundTrip_amended (pages : List CM360.Env)
    (base : CM360.BaseParams) (hlen : pages.length ≤ 9)
    (hchain : CM360.fullChain pages = true) :
    SinglePage.manualFetchAll (CM360.seqStub pages) base pages.length =
      (CM360.paginatedRequest (CM360.seqStub pages) base).result := by
  have hup : ∀ i p t, pages.get? i = some p →
      CM360.seqStub pages (0 + i) t = .ok p := by
    intro i p t hg
    rw [List.get?_eq_getElem?] at hg
    simp [CM360.seqStub, Nat.zero_add, hg]
  have hm := CM360.manualLoop_chain (CM360.seqStub pages) pages pages.length 0
    base.pageTokenParam le_rfl hup hchain
  have hp := CM360.pagLoop_chain (CM360.seqStub pages) base pages 9 0 1 ""
    hlen (by omega) hup (CM360.fullChain_chainOk pages 1 hchain)
  show SinglePage.manualLoop (CM360.seqStub pages) pages.length 0
      base.pageTokenParam =
    (CM360.pagLoop (CM360.seqStub pages) base 9 0 1 "").result
  rw [hm, hp.1]

/-- Witness for C4 amended: a two-page chain gives `[1, 2, 3]` both ways. -/
theorem SinglePage.manual_roundTrip_amended_witness :
    SinglePage.manualFetchAll (CM360.seqStub CM360.twoPages) ⟨none⟩ 2 =
      (CM360.paginatedRequest (CM360.seqStub CM360.twoPages) ⟨none⟩).result :=
  SinglePage.manual_roundTrip_amended CM360.twoPages ⟨none⟩ (by decide)
    (by decide)

/-- Counterexample for C7: on the eleven-page stub sequence whose eleventh
page is the first with an empty item array, the aggregation does not make
the 11 calls the claim demands — it stops at the page cap after 9 calls and
returns only the first nine pages' items, never fetching page 11. -/
theorem CM360.emptyPage_pastCap_counterexample :
    (CM360.paginatedRequest (CM360.seqStub CM360.elevenPages) ⟨none⟩).reqs.length
        = 9 ∧
      (CM360.paginatedRequest (CM360.seqStub CM360.elevenPages) ⟨none⟩).result ≠
        .ok (CM360.aggItems (CM360.elevenPages.take 10)) := by
  constructor
  · decide
  · decide

/-- C7 amended: for every stub sequence whose first page with an empty item
array is page N with N ≤ 9 (within the effective page cap) and whose
earlier pages all carry non-empty item arrays and cursors, the full
aggregation terminates right after fetching page N: it issues exactly N
upstream calls and returns the items of pages 1..N-1. -/
theorem CM360.paginatedRequest_emptyPage_terminates (front : List CM360.Env)
    (lastp : CM360.Env) (base : CM360.BaseParams)
    (hlen : front.length ≤ 8)
    (hfront : front.all (fun p => !CM360.itemsStop p.itemsField &&
      (p.nextPageToken.getD "" != "")) = true)
    (hlast : lastp.itemsField = .arr []) :
    (CM360.paginatedRequest (CM360.seqStub (front ++ [lastp])) base).result =
        .ok (CM360.aggItems front) ∧
      (CM360.paginatedRequest (CM360.seqStub (front ++ [lastp])) base).reqs.length
        = front.length + 1 := by
  have hstop : CM360.itemsStop lastp.itemsField = true := by
    rw [hlast]
    rfl
  have hchain := CM360.chainOk_of_front front lastp 1 hfront hstop
  have hup : ∀ i p t, (front ++ [lastp]).get? i = some p →
      CM360.seqStub (front ++ [lastp]) (0 + i) t = .ok p := by
    intro i p t hg
    rw [List.get?_eq_getElem?] at hg
    simp [CM360.seqStub, Nat.zero_add, hg]
  have hp := CM360.pagLoop_chain (CM360.seqStub (front ++ [lastp])) base
    (front ++ [lastp]) 9 0 1 ""
    (by simp only [List.length_append, List.length_singleton]; omega)
    (by simp only [List.length_append, List.length_singleton]; omega)
    hup hchain
  constructor
  · rw [show (CM360.paginatedRequest (CM360.seqStub (front ++ [lastp])) base).result
        = (CM360.pagLoop (CM360.seqStub (front ++ [lastp])) base 9 0 1 "").result
        from rfl]
    rw [hp.1, CM360.aggItems_append]
    have hlast2 : CM360.aggItems [lastp] = [] := by
      simp [CM360.aggItems, CM360.extractItems, hlast, CM360.itemsOf]
    rw [hlast2, List.append_nil]
  · rw [show (CM360.paginatedRequest (CM360.seqStub (front ++ [lastp])) base).reqs
        = (CM360.pagLoop (CM360.seqStub (front ++ [lastp])) base 9 0 1 "").reqs
        from rfl]
    rw [hp.2]
    simp

/-- Witness for C7 amended: a stub returning an empty item array on its very
first page yields an empty result with exactly one upstream call. -/
theorem CM360.paginatedRequest_emptyPage_terminates_witness :
    (CM360.paginatedRequest (CM360.seqStub [⟨.arr [], none⟩]) ⟨none⟩).result =
        .ok [] ∧
      (CM360.paginatedRequest (CM360.seqStub [⟨.arr [], none⟩]) ⟨none⟩).reqs.length
        = 1 :=
  CM360.paginatedRequest_emptyPage_terminates [] ⟨.arr [], none⟩ ⟨none⟩
    (by decide) (by decide) rfl
